import Mathlib

/-!
Verification of the trade lifecycle and risk management engine of the
`tradewin` repository, as a shallow embedding in Lean 4.

Modelling conventions:
* Prices, ATR values and money amounts are rationals (`ℚ`): the Python
  floats are abstracted to exact rational arithmetic, and the decimal
  literals of the source (`0.01`, `1.8`, `2.5`, …) are read as the exact
  rationals they denote.
* Timestamps are epoch seconds (`ℤ`).  A Python `datetime` subtraction
  yielding a `timedelta` becomes integer subtraction; the `timedelta`
  attribute `.seconds` (the normalized seconds component, i.e. the total
  seconds reduced modulo 86400 into `[0, 86400)`) is modelled by
  `tdSeconds`, while `.total_seconds()` is plain subtraction.
* `round(x, 2)` is round-half-to-even at two decimals (`round2`).
* External effects (logging, DB writes, broker orders) are dropped; the
  functions return the successor state (and, where relevant, the value
  that the source writes to the record sink).
-/

namespace TradeWin

/-- Round-half-to-even to the nearest integer, the rounding mode of
Python's `round`. -/
def roundHalfEven (x : ℚ) : ℤ :=
  let n := Int.floor x
  let r := x - n
  if r < 1/2 then n
  else if 1/2 < r then n + 1
  else if n % 2 = 0 then n else n + 1

/-- Python `round(x, 2)`: round to two decimal places, half to even. -/
def round2 (x : ℚ) : ℚ := (roundHalfEven (x * 100) : ℚ) / 100

/-- Python `timedelta.seconds`: the normalized seconds component of a
duration, equal to the total seconds reduced modulo 86400 into
`[0, 86400)` (for example, a duration of 1 day 10 minutes has
`.seconds = 600`, and a duration of −30 seconds has `.seconds = 86370`). -/
def tdSeconds (delta : ℤ) : ℤ := delta % 86400

/-- The mutable state of `TradeManager` (TradeManager.py), restricted to
the fields read or written by the trade lifecycle operations.  `position`
is `some "BUY"` / `some "SELL"` while a trade is open and `none` when
flat, mirroring the Python `str | None` field. -/
structure TMState where
  position : Option String
  entry_price : ℚ
  stop_loss : ℚ
  target_price : ℚ
  open_trade : Bool
  trade_date : Option ℤ
  entry_time : Option ℤ
  strategy : Option String
  current_trade_id : Option ℕ
  last_sl_update_time : Option ℤ
  last_exit_price : Option ℚ
  last_exit_time : Option ℤ
  atr : ℚ
  atr_history : List ℚ
  atr_multiplier : ℚ
  lots : ℕ
  margins : ℚ
  TRADE_QTY : ℕ
  deriving Repr, DecidableEq

/-- `TradeManager._maybe_update_sl` (TradeManager.py:441-462).  Note that
`last_sl_update_time` is stamped before any of the guards run, so it is
updated even when the candidate stop is dropped.  The `current_price`
argument is only logged by the source and does not influence the state. -/
def tmMaybeUpdateSl (st : TMState) (trade_date : ℤ) (new_sl : ℚ)
    (current_price : ℚ) : TMState :=
  let new_sl_rounded := round2 new_sl
  let st1 := { st with last_sl_update_time := some trade_date }
  if new_sl_rounded = st1.stop_loss ∨ |new_sl_rounded - st1.stop_loss| < 0.01 then st1
  else if st1.position = some "BUY" ∧ new_sl_rounded ≤ st1.stop_loss then st1
  else if st1.position = some "SELL" ∧ st1.stop_loss ≤ new_sl_rounded then st1
  else { st1 with stop_loss := new_sl_rounded }

/-- `SLManager._maybe_update_sl` (SLManager.py:59-88), the refactored
variant of the ratchet guard.  It shares the guard structure of the
`TradeManager` version but stamps `last_sl_update_time` only on an
accepted update.  The refactored `TradeState` carries the same fields
used here (`position`, `stop_loss`, `last_sl_update_time`), so the state
is reused.  The `price` argument is only logged. -/
def slmMaybeUpdateSl (st : TMState) (trade_date : ℤ) (new_sl : ℚ)
    (price : ℚ) : TMState :=
  let new_sl' := round2 new_sl
  if |new_sl' - st.stop_loss| < 0.01 then st
  else if st.position = some "BUY" ∧ new_sl' ≤ st.stop_loss then st
  else if st.position = some "SELL" ∧ st.stop_loss ≤ new_sl' then st
  else { st with stop_loss := new_sl', last_sl_update_time := some trade_date }

/-- A sequence of trailing-SL update attempts against
`TradeManager._maybe_update_sl`; each attempt carries the bar timestamp,
the candidate stop-loss and the current price. -/
def tmApplySlUpdates (st : TMState) (updates : List (ℤ × ℚ × ℚ)) : TMState :=
  updates.foldl (fun s u => tmMaybeUpdateSl s u.1 u.2.1 u.2.2) st

/-- The same sequence of attempts against `SLManager._maybe_update_sl`. -/
def slmApplySlUpdates (st : TMState) (updates : List (ℤ × ℚ × ℚ)) : TMState :=
  updates.foldl (fun s u => slmMaybeUpdateSl s u.1 u.2.1 u.2.2) st

/-- The guard of the live monitoring loop `TradeManager.monitor_trade`
(TradeManager.py:615-619): the exit checks of an iteration are skipped
when the latest bar's timestamp equals `last_sl_update_time`. -/
def tmMonitorSkipsExitCheck (st : TMState) (bar_date : ℤ) : Bool :=
  decide (st.last_sl_update_time = some bar_date)

/-- `TradeManager.in_cooldown` (TradeManager.py:304-312).  The source
compares the `datetime` difference against
`pd.Timedelta(minutes=COOLDOWN_MINUTES)`, an exact duration comparison. -/
def tmInCooldown (st : TMState) (cooldown_minutes : ℤ) (current_time : ℤ) : Bool :=
  match st.last_exit_time with
  | none => false
  | some t => decide (current_time - t < cooldown_minutes * 60)

/-- `TradeManager._adjust_dynamic_sl_target` (TradeManager.py:248-270).
The current ATR is appended to `atr_history`; the median is the element
at index `len / 2` of the sorted history (the source's
`sorted(self.atr_history)[len(self.atr_history) // 2]`).  The local
`recent_atrs` list of the source is computed but never used and is
omitted.  The history is non-empty after the append, so the `getD`
default (the source's `else self.atr` fallback) is never consulted. -/
def tmAdjustDynamicSlTarget (st : TMState) : TMState :=
  let hist := st.atr_history ++ [st.atr]
  let median_atr := (hist.insertionSort (· ≤ ·)).getD (hist.length / 2) st.atr
  if st.atr < median_atr then
    { st with atr_multiplier := 0.5, atr_history := hist,
              target_price := if st.position = some "SELL"
                then st.entry_price - 1.8 * st.atr
                else st.entry_price + 1.8 * st.atr }
  else
    { st with atr_multiplier := 0.7, atr_history := hist,
              target_price := if st.position = some "SELL"
                then st.entry_price - 2.5 * st.atr
                else st.entry_price + 2.5 * st.atr }

/-- `TradeManager.place_order` (TradeManager.py:190-246).  `now` stands
for `datetime.now()` at the call and `new_id` for the freshly generated
UUID.  The same-zone guard compares `(trade_date - last_exit_time).seconds`
— the seconds *component* of the difference — against 900.  When
`last_exit_time` is set, `last_exit_price` has always been set with it
(both are written together by `exit_trade`); a set `last_exit_time` with
an unset `last_exit_price` would raise in the source and is modelled as
no veto.  Broker submission and DB logging are dropped. -/
def tmPlaceOrder (st : TMState) (trade_date : ℤ) (action : String)
    (price stoploss : ℚ) (strategy : String) (lots : ℕ) (now : ℤ)
    (new_id : ℕ) : TMState :=
  if st.open_trade then st
  else
    let max_allowed_lots := (max 1 (Int.floor (st.margins / 250000))).toNat
    let max_allowed_lots := if max_allowed_lots > 100 then 100 else max_allowed_lots
    let lots := if lots > max_allowed_lots then max_allowed_lots else lots
    let accept :=
      tmAdjustDynamicSlTarget
        { st with trade_date := some trade_date, position := some action,
                  entry_price := round2 price, stop_loss := round2 stoploss,
                  lots := lots, strategy := some strategy,
                  entry_time := some now, open_trade := true,
                  current_trade_id := some new_id,
                  atr := if st.atr = 0 then 20 else st.atr }
    match st.last_exit_time, st.last_exit_price with
    | some let_, some lep =>
        if |price - lep| < 0.5 * st.atr ∧ tdSeconds (trade_date - let_) < 900
        then st else accept
    | _, _ => accept

/-- `TradeManager.exit_trade` (TradeManager.py:272-302).  Returns the
successor state together with the PnL written to the record sink (the
source computes `pnl = round(raw_pnl - charges, 2)` and records
`round(pnl, 2)`, which is the same value).  `last_exit_time` is stamped
from the position's `trade_date` field (the timezone adjustment of the
source does not change the instant). -/
def tmExitTrade (st : TMState) (price : ℚ) : TMState × ℚ :=
  let raw_pnl :=
    if st.position = some "BUY"
    then (price - st.entry_price) * st.TRADE_QTY * st.lots
    else (st.entry_price - price) * st.TRADE_QTY * st.lots
  let charges : ℚ := if st.position = some "BUY" then 250 else 100
  let pnl := round2 (raw_pnl - charges)
  ({ st with
      margins := st.margins + pnl,
      last_exit_price := some price,
      last_exit_time := st.trade_date,
      current_trade_id := none,
      trade_date := none,
      position := none,
      open_trade := false,
      entry_price := 0,
      stop_loss := 0 }, pnl)

/-- `TradeManager.should_exit_price` (TradeManager.py:497-515).  The age
guard compares `(trade_time - entry_time).seconds` — the seconds
component — against 60; it only runs when `trade_time` is passed (a
`None` `trade_time` is falsy).  For an open position `entry_time` is
always set; a `None` `entry_time` would raise in the source and is
modelled as skipping the age guard. -/
def tmShouldExitPrice (st : TMState) (high low price : ℚ)
    (trade_time : Option ℤ) : Bool × String :=
  let just_placed : Bool :=
    match trade_time, st.entry_time with
    | some t, some e => decide (tdSeconds (t - e) < 60)
    | _, _ => false
  if just_placed then (false, "Trade just placed")
  else if st.position = some "BUY" ∧ st.stop_loss < low ∧ st.target_price ≤ high then
    (false, "Profit zone — SL should not trigger")
  else if st.position = some "BUY" ∧ price ≤ st.stop_loss then
    (true, "Stop-loss hit.")
  else if st.position = some "SELL" ∧ st.stop_loss ≤ price then
    (true, "Stop-loss hit.")
  else if st.target_price ≤ price ∧ st.position = some "BUY" then
    (false, "Target hit BUY.")
  else if price ≤ st.target_price ∧ st.position = some "SELL" then
    (false, "Target hit SELL.")
  else (false, "")

/-- One OHLC bar, as consumed by the admission filters.  (`open` is a
Lean keyword, hence the `bar_` prefix on the field names.) -/
structure Bar where
  bar_open : ℚ
  bar_high : ℚ
  bar_low : ℚ
  bar_close : ℚ
  deriving Repr, DecidableEq

/-- `MarketData.is_momentum_confirmed` (MarketData.py:186-197).  The
window `df.iloc[current_index - 3 : current_index]` is the three bars
immediately preceding the signal bar; any direction other than `"SELL"`
takes the bullish branch, as in the source's `else`. -/
def is_momentum_confirmed (df : List Bar) (current_index : ℕ)
    (direction : String) : Bool :=
  if current_index < 3 then false
  else
    let prev := (df.drop (current_index - 3)).take 3
    if direction = "SELL" then
      prev.all (fun b => decide (b.bar_close < b.bar_open))
    else
      prev.all (fun b => decide (b.bar_open < b.bar_close))

/-- The mutable `TradeState` of the refactored executor
(trade_manager_refactored.py:18-53). -/
structure TradeState where
  trade_direction : Option String
  position : Option String
  stop_loss : ℚ
  entry_price : ℚ
  target_price : ℚ
  entry_time : Option ℤ
  open_trade : Bool
  strategy : Option String
  trade_id : Option ℕ
  last_exit_price : Option ℚ
  last_exit_time : Option ℤ
  last_sl_update_time : Option ℤ
  date : Option ℤ
  qty : ℕ
  trade_type : Option String
  deriving Repr, DecidableEq

/-- The executor-level fields of `TradeExecutor`
(trade_manager_refactored.py:56-71) that take part in order placement. -/
structure ExecutorState where
  state : TradeState
  atr : ℚ
  atr_history : List ℚ
  lots : ℕ
  TRADE_QTY : ℕ
  margins : ℚ
  deriving Repr, DecidableEq

/-- `TradeExecutor._adjust_target_price` (trade_manager_refactored.py:123-129),
returning the target price together with the extended ATR history. -/
def execAdjustTargetPrice (atr0 : ℚ) (atr_history : List ℚ) (entry : ℚ)
    (action : String) : ℚ × List ℚ :=
  let atr := if atr0 = 0 then 20 else atr0
  let hist := atr_history ++ [atr]
  let median_atr := (hist.insertionSort (· ≤ ·)).getD (hist.length / 2) atr
  let multiplier : ℚ := if atr < median_atr then 1.8 else 2.5
  (if action = "BUY" then entry + multiplier * atr else entry - multiplier * atr, hist)

/-- `TradeExecutor._update_trade_state` (trade_manager_refactored.py:108-121). -/
def execUpdateTradeState (ex : ExecutorState) (date : ℤ) (action : String)
    (price stoploss : ℚ) (strategy : String) (lots : ℕ) (now : ℤ)
    (new_id : ℕ) : ExecutorState :=
  let s := { ex.state with
      trade_id := some new_id, entry_time := some now,
      position := some action, entry_price := round2 price,
      stop_loss := round2 stoploss, strategy := some strategy,
      open_trade := true, last_sl_update_time := none }
  let tp := execAdjustTargetPrice ex.atr ex.atr_history s.entry_price action
  let s := { s with target_price := tp.1, date := some date,
                    qty := ex.TRADE_QTY * lots, trade_type := some action }
  { ex with state := s, atr_history := tp.2, lots := lots }

/-- `TradeExecutor.place_order` (trade_manager_refactored.py:73-92).
Note that `trade_direction`, `entry_price`, `stop_loss` and `strategy`
are written *before* the open-trade guard, so they are overwritten even
when the order is skipped. -/
def execPlaceOrder (ex : ExecutorState) (trade_date : ℤ) (action : String)
    (price stoploss : ℚ) (strategy : String) (lots : ℕ) (now : ℤ)
    (new_id : ℕ) : ExecutorState :=
  let ex := { ex with state := { ex.state with
      trade_direction := some action, entry_price := price,
      stop_loss := stoploss, strategy := some strategy } }
  if ex.state.open_trade then ex
  else execUpdateTradeState ex trade_date action price stoploss strategy lots now new_id

/-- The dynamic target rule as the spec states it: append the current
ATR to the rolling history of entry-time ATR values, let `median_atr` be
the median of that history (the element at index `len / 2` of the sorted
history), use multiplier 1.8 when the current ATR is strictly below the
median and 2.5 otherwise, and set `target = entry + multiplier·ATR` for
a BUY and `entry − multiplier·ATR` for a SELL. -/
def dynamicTarget (atr : ℚ) (hist0 : List ℚ) (entry : ℚ) (action : String) : ℚ :=
  let hist := hist0 ++ [atr]
  let median_atr := (hist.insertionSort (· ≤ ·)).getD (hist.length / 2) atr
  let multiplier : ℚ := if atr < median_atr then 1.8 else 2.5
  if action = "SELL" then entry - multiplier * atr else entry + multiplier * atr

/-! ### Concrete fixture states used by witnesses and counterexamples -/

/-- A flat `TradeManager` state with a recorded last exit at price 50000
and time 0, ATR 40 (the configuration of the spec's same-zone example). -/
def flatAfterExit : TMState :=
  { position := none, entry_price := 0, stop_loss := 0, target_price := 0,
    open_trade := false, trade_date := none, entry_time := none,
    strategy := none, current_trade_id := none, last_sl_update_time := none,
    last_exit_price := some 50000, last_exit_time := some 0,
    atr := 40, atr_history := [], atr_multiplier := 0.6, lots := 1,
    margins := 250000, TRADE_QTY := 25 }

/-- An open BUY position: entry 50000, stop 49800, target 51000,
entered at time 100, quantity 25 × 1 lot. -/
def openBuy : TMState :=
  { position := some "BUY", entry_price := 50000, stop_loss := 49800,
    target_price := 51000, open_trade := true, trade_date := some 100,
    entry_time := some 100, strategy := some "ORB",
    current_trade_id := some 7, last_sl_update_time := none,
    last_exit_price := none, last_exit_time := none,
    atr := 40, atr_history := [40], atr_multiplier := 0.6, lots := 1,
    margins := 250000, TRADE_QTY := 25 }

/-- An open SELL position: entry 50000, stop 50200, target 49000. -/
def openSell : TMState :=
  { openBuy with position := some "SELL", stop_loss := 50200,
                 target_price := 49000 }

/-- A refactored executor whose `TradeState` holds an open BUY position
(entry 50000, stop 49800). -/
def openExec : ExecutorState :=
  { state := { trade_direction := some "BUY", position := some "BUY",
               stop_loss := 49800, entry_price := 50000,
               target_price := 51000, entry_time := some 100,
               open_trade := true, strategy := some "ORB",
               trade_id := some 3, last_exit_price := none,
               last_exit_time := none, last_sl_update_time := none,
               date := some 100, qty := 25, trade_type := some "BUY" },
    atr := 40, atr_history := [], lots := 1, TRADE_QTY := 25,
    margins := 250000 }

/-- A refactored executor with no open trade. -/
def flatExec : ExecutorState :=
  { openExec with state := { openExec.state with open_trade := false } }

/-- Four bars whose first three are bearish (close below open); the bar
at index 3 is the signal bar. -/
def momentumBars : List Bar :=
  [⟨10, 10, 9, 9⟩, ⟨9, 9, 8, 8⟩, ⟨8, 8, 7, 7⟩, ⟨7, 8, 7, 8⟩]

/-! ### Helper lemmas on the trailing-SL ratchet -/

theorem tmMaybeUpdateSl_stop_loss_buy (st : TMState) (t : ℤ) (c p : ℚ)
    (h : st.position = some "BUY") :
    (tmMaybeUpdateSl st t c p).stop_loss =
      if st.stop_loss < round2 c ∧ 0.01 ≤ |round2 c - st.stop_loss|
      then round2 c else st.stop_loss := by
  simp only [tmMaybeUpdateSl, h]
  by_cases hA : st.stop_loss < round2 c ∧ (0.01 : ℚ) ≤ |round2 c - st.stop_loss|
  · rw [if_pos hA, if_neg (not_or.mpr ⟨ne_of_gt hA.1, not_lt.mpr hA.2⟩),
        if_neg (fun hc => absurd hA.1 (not_lt.mpr hc.2))]
    have hns : ¬((some "BUY" : Option String) = some "SELL") := by simp
    rw [if_neg (fun hc => hns hc.1)]
  · rw [if_neg hA]
    by_cases h1 : round2 c = st.stop_loss ∨ |round2 c - st.stop_loss| < (0.01 : ℚ)
    · rw [if_pos h1]
    · have habs : (0.01 : ℚ) ≤ |round2 c - st.stop_loss| :=
        not_lt.mp (fun hl => h1 (Or.inr hl))
      have h2 : round2 c ≤ st.stop_loss :=
        not_lt.mp (fun hlt => hA ⟨hlt, habs⟩)
      rw [if_neg h1, if_pos ⟨trivial, h2⟩]

theorem tmMaybeUpdateSl_stop_loss_sell (st : TMState) (t : ℤ) (c p : ℚ)
    (h : st.position = some "SELL") :
    (tmMaybeUpdateSl st t c p).stop_loss =
      if round2 c < st.stop_loss ∧ 0.01 ≤ |round2 c - st.stop_loss|
      then round2 c else st.stop_loss := by
  simp only [tmMaybeUpdateSl, h]
  by_cases hA : round2 c < st.stop_loss ∧ (0.01 : ℚ) ≤ |round2 c - st.stop_loss|
  · rw [if_pos hA, if_neg (not_or.mpr ⟨ne_of_lt hA.1, not_lt.mpr hA.2⟩)]
    have hns : ¬((some "SELL" : Option String) = some "BUY") := by simp
    rw [if_neg (fun hc => hns hc.1),
        if_neg (fun hc => absurd hA.1 (not_lt.mpr hc.2))]
  · rw [if_neg hA]
    by_cases h1 : round2 c = st.stop_loss ∨ |round2 c - st.stop_loss| < (0.01 : ℚ)
    · rw [if_pos h1]
    · have habs : (0.01 : ℚ) ≤ |round2 c - st.stop_loss| :=
        not_lt.mp (fun hl => h1 (Or.inr hl))
      have h2 : st.stop_loss ≤ round2 c :=
        not_lt.mp (fun hlt => hA ⟨hlt, habs⟩)
      have hns : ¬((some "SELL" : Option String) = some "BUY") := by simp
      rw [if_neg h1, if_neg (fun hc => hns hc.1), if_pos ⟨trivial, h2⟩]

theorem slmMaybeUpdateSl_stop_loss_buy (st : TMState) (t : ℤ) (c p : ℚ)
    (h : st.position = some "BUY") :
    (slmMaybeUpdateSl st t c p).stop_loss =
      if st.stop_loss < round2 c ∧ 0.01 ≤ |round2 c - st.stop_loss|
      then round2 c else st.stop_loss := by
  simp only [slmMaybeUpdateSl, h]
  by_cases hA : st.stop_loss < round2 c ∧ (0.01 : ℚ) ≤ |round2 c - st.stop_loss|
  · rw [if_pos hA, if_neg (not_lt.mpr hA.2),
        if_neg (fun hc => absurd hA.1 (not_lt.mpr hc.2))]
    have hns : ¬((some "BUY" : Option String) = some "SELL") := by simp
    rw [if_neg (fun hc => hns hc.1)]
  · rw [if_neg hA]
    by_cases h1 : |round2 c - st.stop_loss| < (0.01 : ℚ)
    · rw [if_pos h1]
    · have h2 : round2 c ≤ st.stop_loss :=
        not_lt.mp (fun hlt => hA ⟨hlt, not_lt.mp h1⟩)
      rw [if_neg h1, if_pos ⟨trivial, h2⟩]

theorem slmMaybeUpdateSl_stop_loss_sell (st : TMState) (t : ℤ) (c p : ℚ)
    (h : st.position = some "SELL") :
    (slmMaybeUpdateSl st t c p).stop_loss =
      if round2 c < st.stop_loss ∧ 0.01 ≤ |round2 c - st.stop_loss|
      then round2 c else st.stop_loss := by
  simp only [slmMaybeUpdateSl, h]
  by_cases hA : round2 c < st.stop_loss ∧ (0.01 : ℚ) ≤ |round2 c - st.stop_loss|
  · rw [if_pos hA, if_neg (not_lt.mpr hA.2)]
    have hns : ¬((some "SELL" : Option String) = some "BUY") := by simp
    rw [if_neg (fun hc => hns hc.1),
        if_neg (fun hc => absurd hA.1 (not_lt.mpr hc.2))]
  · rw [if_neg hA]
    by_cases h1 : |round2 c - st.stop_loss| < (0.01 : ℚ)
    · rw [if_pos h1]
    · have h2 : st.stop_loss ≤ round2 c :=
        not_lt.mp (fun hlt => hA ⟨hlt, not_lt.mp h1⟩)
      have hns : ¬((some "SELL" : Option String) = some "BUY") := by simp
      rw [if_neg h1, if_neg (fun hc => hns hc.1), if_pos ⟨trivial, h2⟩]

theorem tmMaybeUpdateSl_position (st : TMState) (t : ℤ) (c p : ℚ) :
    (tmMaybeUpdateSl st t c p).position = st.position := by
  simp only [tmMaybeUpdateSl]
  split_ifs <;> rfl

theorem slmMaybeUpdateSl_position (st : TMState) (t : ℤ) (c p : ℚ) :
    (slmMaybeUpdateSl st t c p).position = st.position := by
  simp only [slmMaybeUpdateSl]
  split_ifs <;> rfl

theorem tmMaybeUpdateSl_mono_buy (st : TMState) (t : ℤ) (c p : ℚ)
    (h : st.position = some "BUY") :
    st.stop_loss ≤ (tmMaybeUpdateSl st t c p).stop_loss := by
  rw [tmMaybeUpdateSl_stop_loss_buy st t c p h]
  split_ifs with hc
  · linarith [hc.1]
  · exact le_refl _

theorem tmMaybeUpdateSl_mono_sell (st : TMState) (t : ℤ) (c p : ℚ)
    (h : st.position = some "SELL") :
    (tmMaybeUpdateSl st t c p).stop_loss ≤ st.stop_loss := by
  rw [tmMaybeUpdateSl_stop_loss_sell st t c p h]
  split_ifs with hc
  · linarith [hc.1]
  · exact le_refl _

theorem slmMaybeUpdateSl_mono_buy (st : TMState) (t : ℤ) (c p : ℚ)
    (h : st.position = some "BUY") :
    st.stop_loss ≤ (slmMaybeUpdateSl st t c p).stop_loss := by
  rw [slmMaybeUpdateSl_stop_loss_buy st t c p h]
  split_ifs with hc
  · linarith [hc.1]
  · exact le_refl _

theorem slmMaybeUpdateSl_mono_sell (st : TMState) (t : ℤ) (c p : ℚ)
    (h : st.position = some "SELL") :
    (slmMaybeUpdateSl st t c p).stop_loss ≤ st.stop_loss := by
  rw [slmMaybeUpdateSl_stop_loss_sell st t c p h]
  split_ifs with hc
  · linarith [hc.1]
  · exact le_refl _

theorem tmApplySlUpdates_mono_buy (updates : List (ℤ × ℚ × ℚ)) (st : TMState)
    (h : st.position = some "BUY") :
    st.stop_loss ≤ (tmApplySlUpdates st updates).stop_loss := by
  induction updates generalizing st with
  | nil => exact le_refl _
  | cons u us ih =>
      refine le_trans (tmMaybeUpdateSl_mono_buy st u.1 u.2.1 u.2.2 h) (ih _ ?_)
      rw [tmMaybeUpdateSl_position]
      exact h

theorem tmApplySlUpdates_mono_sell (updates : List (ℤ × ℚ × ℚ)) (st : TMState)
    (h : st.position = some "SELL") :
    (tmApplySlUpdates st updates).stop_loss ≤ st.stop_loss := by
  induction updates generalizing st with
  | nil => exact le_refl _
  | cons u us ih =>
      refine le_trans (ih _ ?_) (tmMaybeUpdateSl_mono_sell st u.1 u.2.1 u.2.2 h)
      rw [tmMaybeUpdateSl_position]
      exact h

theorem slmApplySlUpdates_mono_buy (updates : List (ℤ × ℚ × ℚ)) (st : TMState)
    (h : st.position = some "BUY") :
    st.stop_loss ≤ (slmApplySlUpdates st updates).stop_loss := by
  induction updates generalizing st with
  | nil => exact le_refl _
  | cons u us ih =>
      refine le_trans (slmMaybeUpdateSl_mono_buy st u.1 u.2.1 u.2.2 h) (ih _ ?_)
      rw [slmMaybeUpdateSl_position]
      exact h

theorem slmApplySlUpdates_mono_sell (updates : List (ℤ × ℚ × ℚ)) (st : TMState)
    (h : st.position = some "SELL") :
    (slmApplySlUpdates st updates).stop_loss ≤ st.stop_loss := by
  induction updates generalizing st with
  | nil => exact le_refl _
  | cons u us ih =>
      refine le_trans (ih _ ?_) (slmMaybeUpdateSl_mono_sell st u.1 u.2.1 u.2.2 h)
      rw [slmMaybeUpdateSl_position]
      exact h

/-! ### Claims -/

/-- C1: For every open position and every sequence of trailing stop-loss
update attempts, the stop-loss value is non-decreasing over time for a
BUY position and non-increasing for a SELL position; a candidate stop is
applied only if it is strictly better than the current stop for the
trade's direction (BUY: higher; SELL: lower) and differs from it by at
least 0.01, otherwise the update is dropped without changing the stop.
Stated for both `TradeManager._maybe_update_sl` and the refactored
`SLManager._maybe_update_sl`. -/
theorem c1_trailing_sl_ratchet (st : TMState) (updates : List (ℤ × ℚ × ℚ))
    (t : ℤ) (c p : ℚ) :
    (st.position = some "BUY" →
      st.stop_loss ≤ (tmApplySlUpdates st updates).stop_loss ∧
      st.stop_loss ≤ (slmApplySlUpdates st updates).stop_loss ∧
      (tmMaybeUpdateSl st t c p).stop_loss =
        (if st.stop_loss < round2 c ∧ 0.01 ≤ |round2 c - st.stop_loss|
         then round2 c else st.stop_loss) ∧
      (slmMaybeUpdateSl st t c p).stop_loss =
        (if st.stop_loss < round2 c ∧ 0.01 ≤ |round2 c - st.stop_loss|
         then round2 c else st.stop_loss)) ∧
    (st.position = some "SELL" →
      (tmApplySlUpdates st updates).stop_loss ≤ st.stop_loss ∧
      (slmApplySlUpdates st updates).stop_loss ≤ st.stop_loss ∧
      (tmMaybeUpdateSl st t c p).stop_loss =
        (if round2 c < st.stop_loss ∧ 0.01 ≤ |round2 c - st.stop_loss|
         then round2 c else st.stop_loss) ∧
      (slmMaybeUpdateSl st t c p).stop_loss =
        (if round2 c < st.stop_loss ∧ 0.01 ≤ |round2 c - st.stop_loss|
         then round2 c else st.stop_loss)) := by
  constructor
  · intro h
    exact ⟨tmApplySlUpdates_mono_buy updates st h,
           slmApplySlUpdates_mono_buy updates st h,
           tmMaybeUpdateSl_stop_loss_buy st t c p h,
           slmMaybeUpdateSl_stop_loss_buy st t c p h⟩
  · intro h
    exact ⟨tmApplySlUpdates_mono_sell updates st h,
           slmApplySlUpdates_mono_sell updates st h,
           tmMaybeUpdateSl_stop_loss_sell st t c p h,
           slmMaybeUpdateSl_stop_loss_sell st t c p h⟩

/-- Witness for C1: the ratchet on a concrete BUY position and a concrete
sequence of update attempts (one raising the stop, one trying to lower it,
one raising it again). -/
theorem c1_trailing_sl_ratchet_witness :
    openBuy.stop_loss ≤
      (tmApplySlUpdates openBuy [(300, 49900, 0), (360, 49850, 0), (420, 49950, 0)]).stop_loss ∧
    openBuy.stop_loss ≤
      (slmApplySlUpdates openBuy [(300, 49900, 0), (360, 49850, 0), (420, 49950, 0)]).stop_loss ∧
    (tmMaybeUpdateSl openBuy 300 49700 0).stop_loss = openBuy.stop_loss := by
  have h := c1_trailing_sl_ratchet openBuy
    [(300, 49900, 0), (360, 49850, 0), (420, 49950, 0)] 300 49700 0
  have hb := h.1 (by rfl)
  refine ⟨hb.1, hb.2.1, ?_⟩
  rw [hb.2.2.1]
  norm_num [round2, roundHalfEven, openBuy]

/-- C7: `in_cooldown(t)` returns true iff `last_exit_time` is set and
`t − last_exit_time < cooldown_minutes`; at or beyond the boundary, or
when no exit has ever occurred, it returns false. -/
theorem c7_in_cooldown_iff (st : TMState) (cooldown_minutes t : ℤ) :
    tmInCooldown st cooldown_minutes t = true ↔
      ∃ te, st.last_exit_time = some te ∧ t - te < cooldown_minutes * 60 := by
  cases hle : st.last_exit_time with
  | none => simp [tmInCooldown, hle]
  | some te => simp [tmInCooldown, hle]

/-- Witness for C7: with a last exit at time 0 and a 15-minute cooldown,
time 899 is inside the cooldown and time 900 (the exact boundary) is not. -/
theorem c7_in_cooldown_iff_witness :
    tmInCooldown flatAfterExit 15 899 = true ∧
    tmInCooldown flatAfterExit 15 900 = false := by
  refine ⟨(c7_in_cooldown_iff flatAfterExit 15 899).mpr ⟨0, rfl, by norm_num⟩, by decide⟩

/-- C10: `TradeManager._maybe_update_sl` stamps `last_sl_update_time`
with the bar timestamp even when the candidate stop is rejected (by the
ratchet guard or the 0.01 threshold) and the stop itself is unchanged;
consequently `monitor_trade` skips the exit checks on the bar whose
timestamp equals the last update attempt, whether or not the stop moved. -/
theorem c10_sl_update_time_stamped (st : TMState) (t : ℤ) (c p : ℚ) :
    (tmMaybeUpdateSl st t c p).last_sl_update_time = some t ∧
    tmMonitorSkipsExitCheck (tmMaybeUpdateSl st t c p) t = true ∧
    (st.position = some "BUY" → round2 c ≤ st.stop_loss →
      (tmMaybeUpdateSl st t c p).stop_loss = st.stop_loss) ∧
    (st.position = some "SELL" → st.stop_loss ≤ round2 c →
      (tmMaybeUpdateSl st t c p).stop_loss = st.stop_loss) ∧
    (|round2 c - st.stop_loss| < 0.01 →
      (tmMaybeUpdateSl st t c p).stop_loss = st.stop_loss) := by
  have hstamp : (tmMaybeUpdateSl st t c p).last_sl_update_time = some t := by
    simp only [tmMaybeUpdateSl]
    split_ifs <;> rfl
  refine ⟨hstamp, ?_, ?_, ?_, ?_⟩
  · simp [tmMonitorSkipsExitCheck, hstamp]
  · intro h hle
    rw [tmMaybeUpdateSl_stop_loss_buy st t c p h, if_neg]
    rintro ⟨hlt, -⟩
    exact absurd hle (not_le.mpr hlt)
  · intro h hle
    rw [tmMaybeUpdateSl_stop_loss_sell st t c p h, if_neg]
    rintro ⟨hlt, -⟩
    exact absurd hle (not_le.mpr hlt)
  · intro habs
    simp only [tmMaybeUpdateSl]
    rw [if_pos]
    exact Or.inr habs

/-- Witness for C10: a rejected lower candidate on a concrete BUY
position still stamps `last_sl_update_time` and leaves the stop at
49800, and the monitor guard then skips the bar with that timestamp. -/
theorem c10_sl_update_time_stamped_witness :
    (tmMaybeUpdateSl openBuy 300 49700 0).last_sl_update_time = some 300 ∧
    tmMonitorSkipsExitCheck (tmMaybeUpdateSl openBuy 300 49700 0) 300 = true ∧
    (tmMaybeUpdateSl openBuy 300 49700 0).stop_loss = openBuy.stop_loss := by
  have h := c10_sl_update_time_stamped openBuy 300 49700 0
  refine ⟨h.1, h.2.1, h.2.2.1 (by rfl) ?_⟩
  norm_num [round2, roundHalfEven, openBuy]

/-- C2 counterexample: the refactored `TradeExecutor.place_order`, called
while a trade is open, is claimed to leave every field unchanged; in fact
it overwrites `entry_price` (together with `trade_direction`, `stop_loss`
and `strategy`) before the open-trade guard runs: on an open position
with entry price 50000, a skipped order at price 49000 leaves
`entry_price = 49000`. -/
theorem c2_place_order_open_counterexample :
    openExec.state.open_trade = true ∧
    openExec.state.entry_price = 50000 ∧
    (execPlaceOrder openExec 0 "SELL" 49000 48900 "VWAP_REV" 1 0 9).state.entry_price
      = 49000 ∧
    (49000 : ℚ) ≠ 50000 := by
  exact ⟨rfl, rfl, rfl, by norm_num⟩

/-- C2 (amended): with an open position, `TradeManager.place_order` is a
complete no-op on the state; the refactored `TradeExecutor.place_order`
likewise does not open a new trade, but first overwrites
`trade_direction`, `entry_price`, `stop_loss` and `strategy` with the
new arguments, leaving every other field unchanged.  Both return
normally (a warning is logged, no exception is raised). -/
theorem c2_place_order_open_noop_amended (st : TMState) (ex : ExecutorState)
    (trade_date : ℤ) (action : String) (price stoploss : ℚ)
    (strategy : String) (lots : ℕ) (now : ℤ) (new_id : ℕ) :
    (st.open_trade = true →
      tmPlaceOrder st trade_date action price stoploss strategy lots now new_id = st) ∧
    (ex.state.open_trade = true →
      execPlaceOrder ex trade_date action price stoploss strategy lots now new_id =
        { ex with state := { ex.state with
            trade_direction := some action, entry_price := price,
            stop_loss := stoploss, strategy := some strategy } }) := by
  constructor
  · intro h
    simp [tmPlaceOrder, h]
  · intro h
    simp [execPlaceOrder, h]

/-- Witness for C2 (amended): a `TradeManager` order attempt on a
concrete open BUY position leaves the state unchanged, and the executor
variant keeps `open_trade = true`. -/
theorem c2_place_order_open_noop_amended_witness :
    tmPlaceOrder openBuy 0 "SELL" 49000 48900 "VWAP_REV" 1 0 9 = openBuy ∧
    (execPlaceOrder openExec 0 "SELL" 49000 48900 "VWAP_REV" 1 0 9).state.open_trade
      = true := by
  have h := c2_place_order_open_noop_amended openBuy openExec 0 "SELL" 49000 48900
    "VWAP_REV" 1 0 9
  exact ⟨h.1 rfl, rfl⟩

/-- C3 counterexample: the claim says `exit` resets all open-trade fields
including the target price, entry time and strategy; on a concrete open
BUY position with target 51000, `TradeManager.exit_trade` leaves
`target_price = 51000 ≠ 0`, and the strategy and entry time also keep
their pre-exit values. -/
theorem c3_exit_reset_counterexample :
    openBuy.open_trade = true ∧
    (tmExitTrade openBuy 50100).1.target_price = 51000 ∧
    (51000 : ℚ) ≠ 0 ∧
    (tmExitTrade openBuy 50100).1.strategy = some "ORB" ∧
    (tmExitTrade openBuy 50100).1.entry_time = some 100 := by
  exact ⟨rfl, rfl, by norm_num, rfl, rfl⟩

/-- C3 (amended): on an open position, `exit_trade` computes the PnL,
stamps `last_exit_price` with the exit price and `last_exit_time` with
the position's trade date, resets `position`, `open_trade`,
`entry_price`, `stop_loss`, `current_trade_id` and `trade_date` to their
empty values, adds the PnL to the margins, and leaves `target_price`,
`entry_time` and `strategy` untouched; the stamped `last_exit_time`
remains readable by the subsequent cooldown check. -/
theorem c3_exit_trade_effects_amended (st : TMState) (x : ℚ) (d : ℤ)
    (hopen : st.open_trade = true) (hd : st.trade_date = some d)
    (cm now : ℤ) :
    (tmExitTrade st x).1.last_exit_price = some x ∧
    (tmExitTrade st x).1.last_exit_time = some d ∧
    (tmExitTrade st x).1.position = none ∧
    (tmExitTrade st x).1.open_trade = false ∧
    (tmExitTrade st x).1.entry_price = 0 ∧
    (tmExitTrade st x).1.stop_loss = 0 ∧
    (tmExitTrade st x).1.current_trade_id = none ∧
    (tmExitTrade st x).1.trade_date = none ∧
    (tmExitTrade st x).1.target_price = st.target_price ∧
    (tmExitTrade st x).1.entry_time = st.entry_time ∧
    (tmExitTrade st x).1.strategy = st.strategy ∧
    (tmExitTrade st x).1.margins = st.margins + (tmExitTrade st x).2 ∧
    (tmInCooldown (tmExitTrade st x).1 cm now = true ↔ now - d < cm * 60) := by
  simp [tmExitTrade, tmInCooldown, hd]

/-- Witness for C3 (amended): the exit of a concrete open BUY position at
50100, checked at cooldown instant 999 with a 15-minute cooldown. -/
theorem c3_exit_trade_effects_amended_witness :
    (tmExitTrade openBuy 50100).1.last_exit_price = some 50100 ∧
    (tmExitTrade openBuy 50100).1.last_exit_time = some 100 ∧
    (tmExitTrade openBuy 50100).1.open_trade = false ∧
    tmInCooldown (tmExitTrade openBuy 50100).1 15 999 = true := by
  have h := c3_exit_trade_effects_amended openBuy 50100 100 rfl rfl 15 999
  exact ⟨h.1, h.2.1, h.2.2.2.1, h.2.2.2.2.2.2.2.2.2.2.2.2.mpr (by norm_num)⟩

/-- C4: under the flat-charge model of `TradeManager.exit_trade`, the
recorded PnL is `(exit − entry)·qty − 250` for a BUY and
`(entry − exit)·qty − 100` for a SELL, rounded to 2 decimals, where the
quantity is `TRADE_QTY · lots`. -/
theorem c4_flat_charge_pnl (st : TMState) (x : ℚ) :
    (st.position = some "BUY" →
      (tmExitTrade st x).2 =
        round2 ((x - st.entry_price) * ((st.TRADE_QTY : ℚ) * (st.lots : ℚ)) - 250)) ∧
    (st.position = some "SELL" →
      (tmExitTrade st x).2 =
        round2 ((st.entry_price - x) * ((st.TRADE_QTY : ℚ) * (st.lots : ℚ)) - 100)) := by
  constructor
  · intro h
    simp [tmExitTrade, h, mul_assoc]
  · intro h
    simp [tmExitTrade, h, mul_assoc]

/-- Witness for C4: the spec's round-trip example — a BUY opened at 50000
with quantity 25 (25 × 1 lot), exiting at 50100, yields a PnL of
exactly 2250.00. -/
theorem c4_flat_charge_pnl_witness :
    (tmExitTrade openBuy 50100).2 = 2250 := by
  rw [(c4_flat_charge_pnl openBuy 50100).1 (by rfl)]
  norm_num [round2, roundHalfEven, openBuy]

theorem tmAdjustDynamicSlTarget_open_trade (st : TMState) :
    (tmAdjustDynamicSlTarget st).open_trade = st.open_trade := by
  simp only [tmAdjustDynamicSlTarget]
  split_ifs <;> rfl

theorem tmAdjustDynamicSlTarget_atr_history (st : TMState) :
    (tmAdjustDynamicSlTarget st).atr_history = st.atr_history ++ [st.atr] := by
  simp only [tmAdjustDynamicSlTarget]
  split_ifs <;> rfl

theorem tmAdjustDynamicSlTarget_target (st : TMState) (action : String)
    (hpos : st.position = some action) :
    (tmAdjustDynamicSlTarget st).target_price =
      dynamicTarget st.atr st.atr_history st.entry_price action := by
  simp only [tmAdjustDynamicSlTarget, dynamicTarget, hpos, Option.some.injEq]
  split_ifs <;> rfl

theorem forall_mem_window_iff {α : Type} (df : List α) (i : ℕ)
    (hi : i < df.length) (h3 : 3 ≤ i) (P : α → Prop) :
    (∀ b ∈ (df.drop (i - 3)).take 3, P b) ↔
      ∀ j : Fin df.length, i - 3 ≤ j.val → j.val < i → P (df.get j) := by
  constructor
  · intro hall j hj1 hj2
    have hk : j.val - (i - 3) < min 3 (df.drop (i - 3)).length := by
      simp only [List.length_drop]
      omega
    refine hall _ (List.mem_take_iff_getElem.mpr ⟨j.val - (i - 3), hk, ?_⟩)
    rw [List.getElem_drop, List.get_eq_getElem]
    congr 1
    omega
  · intro hidx b hb
    rcases List.mem_take_iff_getElem.mp hb with ⟨k, hk, rfl⟩
    rw [List.getElem_drop]
    have hklen : (i - 3) + k < df.length := by
      simp only [List.length_drop] at hk
      omega
    have h2 : (i - 3) + k < i := by
      simp only [List.length_drop] at hk
      omega
    exact hidx ⟨(i - 3) + k, hklen⟩ (Nat.le_add_right _ _) h2

/-- C5: for every accepted `open()`, the target price follows the dynamic
target rule: the (effective) current ATR is appended to the rolling
history, and `target = entry ± multiplier·ATR` with multiplier 1.8 when
the ATR is strictly below the median of the updated history and 2.5
otherwise.  Stated for both `TradeManager.place_order` (through
`_adjust_dynamic_sl_target`) and the refactored `TradeExecutor`
(through `_adjust_target_price`). -/
theorem c5_dynamic_target_rule (st : TMState) (ex : ExecutorState)
    (trade_date : ℤ) (action : String) (price stoploss : ℚ)
    (strategy : String) (lots : ℕ) (now : ℤ) (new_id : ℕ)
    (hact : action = "BUY" ∨ action = "SELL") :
    (st.open_trade = false →
      (tmPlaceOrder st trade_date action price stoploss strategy lots now new_id).open_trade
        = true →
      (tmPlaceOrder st trade_date action price stoploss strategy lots now new_id).atr_history
          = st.atr_history ++ [if st.atr = 0 then 20 else st.atr] ∧
      (tmPlaceOrder st trade_date action price stoploss strategy lots now new_id).target_price
          = dynamicTarget (if st.atr = 0 then 20 else st.atr) st.atr_history
              (round2 price) action) ∧
    (ex.state.open_trade = false →
      (execPlaceOrder ex trade_date action price stoploss strategy lots now new_id).atr_history
          = ex.atr_history ++ [if ex.atr = 0 then 20 else ex.atr] ∧
      (execPlaceOrder ex trade_date action price stoploss strategy lots now
          new_id).state.target_price
          = dynamicTarget (if ex.atr = 0 then 20 else ex.atr) ex.atr_history
              (round2 price) action) := by
  constructor
  · intro hflat haccept
    rw [tmPlaceOrder] at haccept ⊢
    simp only [hflat, Bool.false_eq_true, if_false] at haccept ⊢
    rcases hle : st.last_exit_time with _ | lt0 <;>
      rcases hlp : st.last_exit_price with _ | lep <;>
      simp only [hle, hlp] at haccept ⊢
    case some.some =>
      by_cases hg : |price - lep| < 0.5 * st.atr ∧ tdSeconds (trade_date - lt0) < 900
      · rw [if_pos hg] at haccept
        rw [hflat] at haccept
        exact absurd haccept (by simp)
      · rw [if_neg hg]
        refine ⟨?_, ?_⟩
        · rw [tmAdjustDynamicSlTarget_atr_history]
        · rw [tmAdjustDynamicSlTarget_target _ action rfl]
    all_goals
      refine ⟨?_, ?_⟩
      · rw [tmAdjustDynamicSlTarget_atr_history]
      · rw [tmAdjustDynamicSlTarget_target _ action rfl]
  · intro hflat
    simp only [execPlaceOrder, execUpdateTradeState, execAdjustTargetPrice, hflat,
               Bool.false_eq_true, if_false, dynamicTarget]
    rcases hact with hact | hact <;> subst hact <;>
      refine ⟨by first | trivial | rfl, ?_⟩ <;>
      split_ifs <;> first | rfl | (exfalso; simp_all)

/-- Witness for C5: on a flat state with ATR 40 and empty history, an
accepted BUY at 50030 gets median 40, multiplier 2.5 and target
50030 + 2.5·40 = 50130, in both implementations. -/
theorem c5_dynamic_target_rule_witness :
    (tmPlaceOrder flatAfterExit 600 "BUY" 50030 49900 "ORB" 1 600 1).target_price
      = 50130 ∧
    (execPlaceOrder flatExec 600 "BUY" 50030 49900 "ORB" 1 600 1).state.target_price
      = 50130 := by
  have h := c5_dynamic_target_rule flatAfterExit flatExec 600 "BUY" 50030 49900 "ORB"
    1 600 1 (Or.inl rfl)
  have hopen : (tmPlaceOrder flatAfterExit 600 "BUY" 50030 49900 "ORB" 1 600 1).open_trade
      = true := by
    rw [tmPlaceOrder]
    norm_num [flatAfterExit, tdSeconds, tmAdjustDynamicSlTarget_open_trade]
  constructor
  · rw [(h.1 rfl hopen).2]
    norm_num [dynamicTarget, flatAfterExit, round2, roundHalfEven]
    decide
  · rw [(h.2 rfl).2]
    norm_num [dynamicTarget, flatExec, openExec, round2, roundHalfEven]
    decide

/-- C6 counterexample: the claim says the same-zone re-entry veto of
`place_order` fires exactly when the elapsed time since the last exit is
under 15 minutes (and the price is within 0.5·ATR); but the source
compares the `timedelta.seconds` component, so a proposal 1 day and
10 minutes after the last exit (elapsed 87000 s ≥ 900 s) in the same
price zone is still rejected. -/
theorem c6_same_zone_counterexample :
    flatAfterExit.open_trade = false ∧
    flatAfterExit.last_exit_price = some 50000 ∧
    flatAfterExit.last_exit_time = some 0 ∧
    flatAfterExit.atr = 40 ∧
    ¬((87000 : ℤ) - 0 < 900) ∧
    tmPlaceOrder flatAfterExit 87000 "BUY" 50010 49900 "ORB" 1 87000 1
      = flatAfterExit := by
  refine ⟨rfl, rfl, rfl, rfl, by norm_num, ?_⟩
  rw [tmPlaceOrder]
  norm_num [flatAfterExit, tdSeconds]

/-- C6 (amended): for a flat state with a recorded last exit,
`place_order` rejects the request as a no-op exactly when
`|price − lastExitPrice| < 0.5·ATR` and the seconds *component* of
`timestamp − lastExitTime` (the elapsed time reduced modulo 24 hours,
Python `timedelta.seconds`) is less than 900 seconds; within one day of
the last exit this coincides with the claim's 15-minute rule. -/
theorem c6_same_zone_guard_amended (st : TMState) (trade_date : ℤ)
    (action : String) (price stoploss : ℚ) (strategy : String) (lots : ℕ)
    (now : ℤ) (new_id : ℕ) (lep : ℚ) (lt0 : ℤ)
    (hflat : st.open_trade = false) (h1 : st.last_exit_time = some lt0)
    (h2 : st.last_exit_price = some lep) :
    tmPlaceOrder st trade_date action price stoploss strategy lots now new_id = st
      ↔ (|price - lep| < 0.5 * st.atr ∧ tdSeconds (trade_date - lt0) < 900) := by
  rw [tmPlaceOrder]
  simp only [hflat, Bool.false_eq_true, if_false, h1, h2]
  by_cases hg : |price - lep| < 0.5 * st.atr ∧ tdSeconds (trade_date - lt0) < 900
  · simp [hg]
  · rw [if_neg hg]
    constructor
    · intro he
      have h3 := congrArg TMState.open_trade he
      rw [tmAdjustDynamicSlTarget_open_trade] at h3
      rw [hflat] at h3
      exact absurd h3 (by simp)
    · intro hc
      exact absurd hc hg

/-- Witness for C6 (amended): the spec's example — last exit at 50000 at
time 0, ATR 40, a BUY proposal at 50010 ten minutes later is rejected
(the state is returned unchanged). -/
theorem c6_same_zone_guard_amended_witness :
    tmPlaceOrder flatAfterExit 600 "BUY" 50010 49900 "ORB" 1 600 1
      = flatAfterExit ∧
    |(50010 : ℚ) - 50000| < 0.5 * flatAfterExit.atr ∧
    tdSeconds (600 - 0) < 900 := by
  refine ⟨?_, by norm_num [flatAfterExit], by norm_num [tdSeconds]⟩
  exact (c6_same_zone_guard_amended flatAfterExit 600 "BUY" 50010 49900 "ORB" 1 600 1
    50000 0 rfl rfl rfl).mpr ⟨by norm_num [flatAfterExit], by norm_num [tdSeconds]⟩

/-- C8 counterexample: the claim says every bar at least 60 seconds
after entry flags an exit when a BUY's price is at or below the stop;
but the source compares the `timedelta.seconds` component, so a bar
1 day and 30 seconds after entry (elapsed 86430 s ≥ 60 s) with
price 49700 ≤ stop 49800 is still reported as "Trade just placed" and
produces no exit. -/
theorem c8_exit_decision_counterexample :
    openBuy.position = some "BUY" ∧
    openBuy.entry_time = some 100 ∧
    (60 : ℤ) ≤ (86530 : ℤ) - 100 ∧
    (49700 : ℚ) ≤ openBuy.stop_loss ∧
    (49650 : ℚ) ≤ (49700 : ℚ) ∧ (49700 : ℚ) ≤ (49750 : ℚ) ∧
    (tmShouldExitPrice openBuy 49750 49650 49700 (some 86530)).1 = false := by
  exact ⟨rfl, rfl, by norm_num, by norm_num [openBuy], by norm_num, by norm_num, rfl⟩

/-- C8 (amended): for an open position and a coherent bar
(`low ≤ price ≤ high`), when the seconds component of the bar's age
since entry (Python `timedelta.seconds`, the age reduced modulo
24 hours) is at least 60, `should_exit_price` flags an exit exactly when
`price ≤ stopLoss` for a BUY or `price ≥ stopLoss` for a SELL — in
particular a bar that reaches the target without breaching the stop
never by itself produces an exit; when that seconds component is below
60 (so in particular for every bar younger than 60 seconds), no
stop/target exit is produced. -/
theorem c8_exit_decision_amended (st : TMState) (high low price : ℚ)
    (t e : ℤ) (he : st.entry_time = some e)
    (hlp : low ≤ price) (hph : price ≤ high) :
    (60 ≤ tdSeconds (t - e) →
      ((tmShouldExitPrice st high low price (some t)).1 = true ↔
        (st.position = some "BUY" ∧ price ≤ st.stop_loss) ∨
        (st.position = some "SELL" ∧ st.stop_loss ≤ price))) ∧
    (tdSeconds (t - e) < 60 →
      (tmShouldExitPrice st high low price (some t)).1 = false) := by
  constructor
  · intro hage
    have hn : ¬ tdSeconds (t - e) < 60 := not_lt.mpr hage
    simp only [tmShouldExitPrice, he, hn, decide_False, Bool.false_eq_true, if_false]
    split_ifs with hc1 hc2 hc3 hc4 hc5
    · refine iff_of_false (by simp) ?_
      rintro (⟨hb, hple⟩ | ⟨hs, -⟩)
      · exact absurd hple (not_le.mpr (lt_of_lt_of_le hc1.2.1 hlp))
      · rw [hc1.1] at hs
        exact absurd hs (by simp)
    · exact iff_of_true rfl (Or.inl hc2)
    · exact iff_of_true rfl (Or.inr hc3)
    · refine iff_of_false (by simp) ?_
      rintro (h | h)
      · exact hc2 h
      · exact hc3 h
    · refine iff_of_false (by simp) ?_
      rintro (h | h)
      · exact hc2 h
      · exact hc3 h
    · refine iff_of_false (by simp) ?_
      rintro (h | h)
      · exact hc2 h
      · exact hc3 h
  · intro hlt
    simp [tmShouldExitPrice, he, hlt]

/-- Witness for C8 (amended): on a concrete open BUY position (stop
49800), a bar 100 seconds after entry with price 49750 flags an exit,
and the same bar 30 seconds after entry does not. -/
theorem c8_exit_decision_amended_witness :
    (tmShouldExitPrice openBuy 49900 49700 49750 (some 200)).1 = true ∧
    (tmShouldExitPrice openBuy 49900 49700 49750 (some 130)).1 = false := by
  have ha := c8_exit_decision_amended openBuy 49900 49700 49750 200 100 rfl
    (by norm_num) (by norm_num)
  have hb := c8_exit_decision_amended openBuy 49900 49700 49750 130 100 rfl
    (by norm_num) (by norm_num)
  exact ⟨(ha.1 (by norm_num [tdSeconds])).mpr (Or.inl ⟨rfl, by norm_num [openBuy]⟩),
         hb.2 (by norm_num [tdSeconds])⟩

/-- C9: the momentum admission check accepts exactly when the signal bar
has at least 3 prior bars and the 3 bars immediately preceding it are
all directional with the signal (close below open for SELL, close above
open for BUY); with fewer than 3 prior bars the proposal is vetoed. -/
theorem c9_momentum_admission (df : List Bar) (i : ℕ) (hi : i < df.length) :
    (is_momentum_confirmed df i "SELL" = true ↔
      3 ≤ i ∧ ∀ j : Fin df.length, i - 3 ≤ j.val → j.val < i →
        (df.get j).bar_close < (df.get j).bar_open) ∧
    (is_momentum_confirmed df i "BUY" = true ↔
      3 ≤ i ∧ ∀ j : Fin df.length, i - 3 ≤ j.val → j.val < i →
        (df.get j).bar_open < (df.get j).bar_close) := by
  by_cases h3 : i < 3
  · constructor <;>
    · simp only [is_momentum_confirmed]
      rw [if_pos h3]
      refine iff_of_false (by simp) ?_
      rintro ⟨hge, -⟩
      omega
  · push_neg at h3
    constructor
    · simp only [is_momentum_confirmed]
      rw [if_neg (not_lt.mpr h3), if_pos trivial, List.all_eq_true]
      constructor
      · intro hall
        refine ⟨h3, (forall_mem_window_iff df i hi h3
          (fun b => b.bar_close < b.bar_open)).mp ?_⟩
        intro b hb
        exact of_decide_eq_true (hall b hb)
      · rintro ⟨-, hidx⟩ b hb
        exact decide_eq_true ((forall_mem_window_iff df i hi h3
          (fun b => b.bar_close < b.bar_open)).mpr hidx b hb)
    · simp only [is_momentum_confirmed]
      rw [if_neg (not_lt.mpr h3), if_neg (by decide), List.all_eq_true]
      constructor
      · intro hall
        refine ⟨h3, (forall_mem_window_iff df i hi h3
          (fun b => b.bar_open < b.bar_close)).mp ?_⟩
        intro b hb
        exact of_decide_eq_true (hall b hb)
      · rintro ⟨-, hidx⟩ b hb
        exact decide_eq_true ((forall_mem_window_iff df i hi h3
          (fun b => b.bar_open < b.bar_close)).mpr hidx b hb)

/-- Witness for C9: three bearish bars before the signal bar at index 3
are accepted for a SELL by the momentum filter. -/
theorem c9_momentum_admission_witness :
    is_momentum_confirmed momentumBars 3 "SELL" = true := by
  refine ((c9_momentum_admission momentumBars 3 (by norm_num [momentumBars])).1).mpr
    ⟨by norm_num, ?_⟩
  intro j hj1 hj2
  fin_cases j <;> norm_num [momentumBars] at hj2 ⊢

end TradeWin
